import Mathlib

/-!
Verification of the Kallax BGG catalog-normalization and search-relevance
core (`utils/bgg_api.py`, `cogs/game_search.py`) against its specification.

The Python functions are shallowly embedded: decoded XML/JSON payloads
(from `xmltodict.parse`) become the inductive value type `XVal`; Python
floats are modelled as exact rationals (`Rat`), except that the special
values produced by `float("inf")` / `float("nan")` are modelled explicitly
because their conversion behaviour is observable; code that can raise is
embedded in the `Except PyErr` monad, and a bare `try/except Exception`
block is embedded by mapping any `PyErr` to the handler's result.
-/

namespace Kallax

/-- The Python exception classes that the embedded code can raise or catch. -/
inductive PyErr where
  | valueError
  | typeError
  | attributeError
  | keyError
  | overflowError
  deriving DecidableEq, Repr

/-- A decoded XML/JSON value as produced by `xmltodict.parse`, together with
the plain `int`/`float` constants the code supplies as `.get` defaults:
`None`, strings, integers, floats, lists and string-keyed dictionaries. -/
inductive XVal where
  | null : XVal
  | s : String → XVal
  | i : Int → XVal
  | f : Rat → XVal
  | list : List XVal → XVal
  | dict : List (String × XVal) → XVal

/-- First binding of a key in a dictionary's association list (keys produced
by `xmltodict` are unique, so first-match equals Python dict lookup). -/
def dictLookup (l : List (String × XVal)) (k : String) : Option XVal :=
  match l with
  | [] => none
  | p :: rest => if p.1 = k then some p.2 else dictLookup rest k

/-- Python truthiness (`bool(x)`) for the embedded values. -/
def pyTruthy : XVal → Bool
  | .null => false
  | .s t => t != ""
  | .i n => n != 0
  | .f q => q != 0
  | .list l => !l.isEmpty
  | .dict l => !l.isEmpty

/-- `l.get(k, d)` on a dictionary known to be one. -/
def dictGetD (l : List (String × XVal)) (k : String) (d : XVal) : XVal :=
  (dictLookup l k).getD d

/-- `x.get(k, d)`: dictionary lookup with default; calling `.get` on a
non-dictionary raises `AttributeError`. -/
def XVal.getD (x : XVal) (k : String) (d : XVal) : Except PyErr XVal :=
  match x with
  | .dict l => .ok (dictGetD l k d)
  | _ => .error .attributeError

/-- `x[k]` with a string subscript: `KeyError` for a missing dictionary key,
`TypeError` for any non-dictionary value. -/
def XVal.getItem (x : XVal) (k : String) : Except PyErr XVal :=
  match x with
  | .dict l =>
    match dictLookup l k with
    | some v => .ok v
    | none => .error .keyError
  | _ => .error .typeError

/-- Contiguous-sublist test, used for both Python's substring containment
operator and the scorer's `query in name` check. -/
def containsSub (needle : List Char) : List Char → Bool
  | [] => needle.isEmpty
  | c :: t => needle.isPrefixOf (c :: t) || containsSub needle t

/-- `k in x` for a string `k`: key test on dictionaries, substring test on
strings, element test on lists, `TypeError` otherwise. -/
def pyIn (k : String) (x : XVal) : Except PyErr Bool :=
  match x with
  | .dict l => .ok (l.any (fun p => p.1 == k))
  | .s t => .ok (containsSub k.data t.data)
  | .list l =>
    .ok (l.any (fun e => match e with | .s t => t == k | _ => false))
  | _ => .error .typeError

/-- `x == "lit"` for a string literal: Python `==` between a string and a
value of another type is simply `False`, never an error. -/
def pyEqStr (x : XVal) (lit : String) : Bool :=
  match x with
  | .s t => t == lit
  | _ => false

/-- The singular-vs-list normalization the client applies at every repeated
element: `if not isinstance(v, list): v = [v]`. -/
def ensureList : XVal → List XVal
  | .list l => l
  | v => [v]

/-- Python `str.strip()` on the character list. -/
def trimWsList (cs : List Char) : List Char :=
  ((cs.dropWhile Char.isWhitespace).reverse.dropWhile Char.isWhitespace).reverse

def strTrim (t : String) : String :=
  String.mk (trimWsList t.data)

/-- Python `str.lower()` (ASCII model, which covers the embedded inputs). -/
def strLower (t : String) : String :=
  String.mk (t.data.map Char.toLower)

/-- Python `str.startswith(pre)`. -/
def strStartsWith (t pre : String) : Bool :=
  pre.data.isPrefixOf t.data

/-- A Python float value: exact finite rationals plus the observable special
values.  Finite decimal literals are kept exact rather than rounded to
binary64; only the named special values `inf`/`nan` are modelled, since the
code's behaviour on them is observable through `int()`. -/
inductive PyFloat where
  | finite : Rat → PyFloat
  | inf : PyFloat
  | negInf : PyFloat
  | nan : PyFloat
  deriving DecidableEq, Repr

/-- Numeric value of a digit list (most significant first). -/
def digitsToNat (cs : List Char) : Nat :=
  cs.foldl (fun a c => a * 10 + (c.toNat - 48)) 0

def isDigits (cs : List Char) : Bool :=
  !cs.isEmpty && cs.all Char.isDigit

/-- Exponent part of a float literal: optional sign then digits. -/
def parseExpPart (cs : List Char) : Option Int :=
  match cs with
  | '+' :: ds => if isDigits ds then some (digitsToNat ds) else none
  | '-' :: ds => if isDigits ds then some (-(digitsToNat ds : Int)) else none
  | ds => if isDigits ds then some (digitsToNat ds) else none

/-- Mantissa of a float literal: digits with at most one decimal point and
at least one digit overall (`"4."` and `".5"` are accepted, as by Python). -/
def parseMantissa (cs : List Char) : Option Rat :=
  let ip := cs.takeWhile Char.isDigit
  match cs.dropWhile Char.isDigit with
  | [] => if ip.isEmpty then none else some (digitsToNat ip)
  | '.' :: fp =>
    if fp.all Char.isDigit && (!ip.isEmpty || !fp.isEmpty) then
      some ((digitsToNat ip : Rat) + (digitsToNat fp : Rat) / (10 : Rat) ^ fp.length)
    else none
  | _ => none

/-- Unsigned float literal body: mantissa with optional `e`/`E` exponent. -/
def parseUnsignedFloat (cs : List Char) : Option Rat :=
  let mant := cs.takeWhile (fun c => c ≠ 'e' ∧ c ≠ 'E')
  match cs.dropWhile (fun c => c ≠ 'e' ∧ c ≠ 'E') with
  | [] => parseMantissa mant
  | _ :: expPart => do
    let m ← parseMantissa mant
    let e ← parseExpPart expPart
    pure (m * (10 : Rat) ^ e)

/-- `float(str)`: strip surrounding whitespace, optional sign, then either a
named special value (`inf`/`infinity`/`nan`, case-insensitive) or a decimal
literal; anything else raises `ValueError`. -/
def parseFloatStr (t : String) : Except PyErr PyFloat :=
  let cs := trimWsList t.data
  let sign : Int := match cs with
    | '-' :: _ => -1
    | _ => 1
  let body := match cs with
    | '+' :: r => r
    | '-' :: r => r
    | r => r
  let low := body.map Char.toLower
  if low = "inf".data ∨ low = "infinity".data then
    .ok (if sign = 1 then .inf else .negInf)
  else if low = "nan".data then .ok .nan
  else
    match parseUnsignedFloat body with
    | some q => .ok (.finite ((sign : Rat) * q))
    | none => .error .valueError

/-- `float(x)` on an arbitrary value. -/
def pyFloat (x : XVal) : Except PyErr PyFloat :=
  match x with
  | .s t => parseFloatStr t
  | .i n => .ok (.finite (n : Rat))
  | .f q => .ok (.finite q)
  | _ => .error .typeError

/-- Truncation toward zero, as `int()` applied to a finite float. -/
def ratTrunc (q : Rat) : Int :=
  if q < 0 then -((-q).floor) else q.floor

/-- `int(f)` on a float: truncates finite values; raises `OverflowError` on
infinities and `ValueError` on `nan`. -/
def intOfPyFloat : PyFloat → Except PyErr Int
  | .finite q => .ok (ratTrunc q)
  | .inf => .error .overflowError
  | .negInf => .error .overflowError
  | .nan => .error .valueError

/-- `int(str)`: strip whitespace, optional sign, then digits only. -/
def parseIntStr (t : String) : Except PyErr Int :=
  let cs := trimWsList t.data
  match cs with
  | '+' :: ds => if isDigits ds then .ok (digitsToNat ds) else .error .valueError
  | '-' :: ds => if isDigits ds then .ok (-(digitsToNat ds : Int)) else .error .valueError
  | ds => if isDigits ds then .ok (digitsToNat ds) else .error .valueError

/-- `int(x)` on an arbitrary value. -/
def pyInt (x : XVal) : Except PyErr Int :=
  match x with
  | .s t => parseIntStr t
  | .i n => .ok n
  | .f q => .ok (ratTrunc q)
  | _ => .error .typeError

/-- The `value is None or value == ''` guard shared by both coercers. -/
def isNoneOrEmptyStr : XVal → Bool
  | .null => true
  | .s t => t == ""
  | _ => false

/-- The `_safe_int` helper with its exception behaviour explicit: the guard
returns `None` for `None`/empty string, then `int(float(value))` is
attempted and only `ValueError` and `TypeError` are caught (source lines
380-388); any other exception — notably the `OverflowError` from an
infinite float — escapes. -/
def safeIntExc (v : XVal) : Except PyErr (Option Int) :=
  if isNoneOrEmptyStr v then .ok none
  else
    match pyFloat v >>= intOfPyFloat with
    | .ok n => .ok (some n)
    | .error .valueError => .ok none
    | .error .typeError => .ok none
    | .error e => .error e

/-- `_safe_float`: same guard, one fewer coercion step; `float()` itself
only raises `ValueError`/`TypeError`, both caught, so this never escapes. -/
def safeFloatExc (v : XVal) : Except PyErr (Option PyFloat) :=
  if isNoneOrEmptyStr v then .ok none
  else
    match pyFloat v with
    | .ok q => .ok (some q)
    | .error .valueError => .ok none
    | .error .typeError => .ok none
    | .error e => .error e

/-- Value view of `_safe_int` as observed by call sites inside a
`try/except Exception` block, where an escaping exception discards the
whole enclosing item and so contributes no value. -/
def safeInt (v : XVal) : Option Int :=
  match safeIntExc v with
  | .ok r => r
  | .error _ => none

def safeFloat (v : XVal) : Option PyFloat :=
  match safeFloatExc v with
  | .ok r => r
  | .error _ => none

/-! ### `_clean_html`: HTML-to-text extraction and whitespace normalization

`BeautifulSoup(html, "html.parser").get_text()` is an external library
call; it is modelled by a character-level state machine that mirrors the
documented behaviour of Python's `html.parser` backend: `<` opens a markup
tag only when followed by a letter, `!`, `/` or `?` (otherwise it stays
literal text), a tag is dropped up to the next `>` (an unterminated tag is
dropped to end of input), and `&name;` / `&#NN;` / `&#xHH;` character
references are decoded, with unrecognized references left verbatim. -/

/-- Named character references recognized by the model (the common ones the
standard decoder resolves; sufficient for the repertoire BGG emits). -/
def entityTable : List (String × String) :=
  [("amp", "&"), ("lt", "<"), ("gt", ">"), ("quot", "\""),
   ("apos", "\x27"), ("nbsp", " "), ("mdash", "—"), ("ndash", "–")]

def hexVal (c : Char) : Nat :=
  if c.isDigit then c.toNat - 48
  else if 'a' ≤ c ∧ c ≤ 'f' then c.toNat - 87
  else c.toNat - 55

def isHexDigits (cs : List Char) : Bool :=
  !cs.isEmpty && cs.all (fun c => c.isDigit || ('a' ≤ c && c ≤ 'f') || ('A' ≤ c && c ≤ 'F'))

def hexToNat (cs : List Char) : Nat :=
  cs.foldl (fun a c => a * 16 + hexVal c) 0

/-- Decode the body of a `&...;` character reference; `none` when it is not
a recognized reference (the text is then kept verbatim). -/
def decodeEntity (acc : List Char) : Option (List Char) :=
  match acc with
  | '#' :: rest =>
    match rest with
    | 'x' :: ds =>
      if isHexDigits ds then some [Char.ofNat (hexToNat ds)] else none
    | 'X' :: ds =>
      if isHexDigits ds then some [Char.ofNat (hexToNat ds)] else none
    | ds => if isDigits ds then some [Char.ofNat (digitsToNat ds)] else none
  | _ =>
    match entityTable.find? (fun p => p.1.data == acc) with
    | some p => some p.2.data
    | none => none

/-- Does the character after `<` start a markup construct?  (`html.parser`
treats `<` followed by anything else as literal text.) -/
def tagOpens (rest : List Char) : Bool :=
  match rest with
  | [] => false
  | c :: _ => c.isAlpha || c == '!' || c == '/' || c == '?'

def entNameChar (c : Char) : Bool :=
  c.isAlphanum || c == '#'

/-- Scanner state: plain text, inside a `<...>` tag, or accumulating a
`&...` character-reference name. -/
inductive HMode where
  | text
  | tag
  | ent (acc : List Char)

/-- The text-extraction state machine (model of `soup.get_text()`). -/
def getTextAux : HMode → List Char → List Char
  | .text, [] => []
  | .tag, [] => []
  | .ent acc, [] => '&' :: acc
  | .tag, c :: rest =>
    if c = '>' then getTextAux .text rest else getTextAux .tag rest
  | .text, c :: rest =>
    if c = '<' then
      if tagOpens rest then getTextAux .tag rest
      else '<' :: getTextAux .text rest
    else if c = '&' then getTextAux (.ent []) rest
    else c :: getTextAux .text rest
  | .ent acc, c :: rest =>
    if c = ';' then
      match decodeEntity acc with
      | some out => out ++ getTextAux .text rest
      | none => '&' :: (acc ++ ';' :: getTextAux .text rest)
    else if c = '&' then '&' :: (acc ++ getTextAux (.ent []) rest)
    else if entNameChar c then getTextAux (.ent (acc ++ [c])) rest
    else if c = '<' then
      '&' :: (acc ++
        (if tagOpens rest then getTextAux .tag rest
         else '<' :: getTextAux .text rest))
    else '&' :: (acc ++ c :: getTextAux .text rest)

def getText (t : String) : String :=
  String.mk (getTextAux .text t.data)

/-- `re.sub(r"\s+", " ", text)`: collapse each maximal whitespace run to a
single space (the flag records whether the previous character was part of a
run already replaced). -/
def squashWsAux : Bool → List Char → List Char
  | _, [] => []
  | prevWs, c :: rest =>
    if c.isWhitespace then
      if prevWs then squashWsAux true rest
      else ' ' :: squashWsAux true rest
    else c :: squashWsAux false rest

/-- The string pipeline of `_clean_html` (source lines 366-378): extract
text, collapse whitespace, strip. -/
def cleanHtmlStr (t : String) : String :=
  String.mk (trimWsList (squashWsAux false (getText t).data))

/-- `_clean_html` on an arbitrary decoded value: falsy input returns the
empty string; a truthy non-string reaches `BeautifulSoup`, which raises
`TypeError`. -/
def cleanHtml (x : XVal) : Except PyErr String :=
  if !pyTruthy x then .ok ""
  else
    match x with
    | .s t => .ok (cleanHtmlStr t)
    | _ => .error .typeError

/-! ### `_parse_suggested_players` (source lines 199-241) -/

/-- Equality of Python dict keys for the scalar values that can appear as a
`@numplayers` label (container values are unhashable and never get here). -/
def scalarKeyEq : XVal → XVal → Bool
  | .s a, .s b => a == b
  | .i a, .i b => a == b
  | .f a, .f b => a == b
  | .i a, .f b => (a : Rat) == b
  | .f a, .i b => a == (b : Rat)
  | .null, .null => true
  | _, _ => false

/-- `suggested[k] = v` on an insertion-ordered dict: update in place when
the key exists, else append; unhashable keys raise `TypeError`. -/
def dictSet (l : List (XVal × String)) (k : XVal) (v : String) :
    Except PyErr (List (XVal × String)) :=
  match k with
  | .list _ => .error .typeError
  | .dict _ => .error .typeError
  | _ =>
    if l.any (fun p => scalarKeyEq p.1 k) then
      .ok (l.map (fun p => if scalarKeyEq p.1 k then (p.1, v) else p))
    else .ok (l ++ [(k, v)])

/-- One turn of the inner vote loop (source lines 226-237), over the pair
`(recommendation, best_votes)`.  When the tally value is `Best`, Python
evaluates `numvotes > best_votes`, which raises `TypeError` if `_safe_int`
returned `None`. -/
def voteStep (acc : String × Int) (vote : XVal) : Except PyErr (String × Int) :=
  match vote with
  | .dict _ => do
    let value ← vote.getD "@value" XVal.null
    let nvV ← vote.getD "@numvotes" (XVal.i 0)
    let numvotes ← safeIntExc nvV
    if pyEqStr value "Best" then
      match numvotes with
      | none => .error .typeError
      | some n => if n > acc.2 then pure ("Best", n) else pure acc
    else if pyEqStr value "Recommended" && acc.1 != "Best" then
      pure ("Recommended", acc.2)
    else pure acc
  | _ => pure acc

/-- One turn of the per-player-count loop (source lines 211-239). -/
def resultStep (suggested : List (XVal × String)) (result : XVal) :
    Except PyErr (List (XVal × String)) :=
  match result with
  | .dict _ => do
    let numplayers ← result.getD "@numplayers" (XVal.s "")
    if !pyTruthy numplayers then pure suggested
    else do
      let votesV ← result.getD "result" (XVal.list [])
      let agg ← (ensureList votesV).foldlM voteStep ("Not Recommended", 0)
      dictSet suggested numplayers agg.1
  | _ => pure suggested

/-- `_parse_suggested_players`: reduce the polls to an insertion-ordered
mapping from player-count label to recommendation. -/
def parseSuggestedPlayers (polls : List XVal) : Except PyErr (List (XVal × String)) :=
  polls.foldlM
    (fun suggested poll =>
      match poll with
      | .dict _ => do
        let nameAttr ← poll.getD "@name" XVal.null
        if !pyEqStr nameAttr "suggested_numplayers" then pure suggested
        else do
          let resultsV ← poll.getD "results" (XVal.list [])
          (ensureList resultsV).foldlM resultStep suggested
      | _ => pure suggested)
    []

/-! ### Response parsers (the post-fetch bodies of `search_games`,
`get_game_details`, `get_user_collection`, `get_user_plays`) -/

/-- The `x.get(k, {}).get("@value")` attribute-access pattern. -/
def attrVal (item : XVal) (k : String) : Except PyErr XVal := do
  let v ← item.getD k (XVal.dict [])
  v.getD "@value" XVal.null

/-- The shared prologue of the three `items`-shaped endpoints:
`if not data or "items" not in data: return []` and likewise for the inner
`item` key, then the singular-vs-list normalization (e.g. source lines
74-84). -/
def repeatedItems (data : XVal) : Except PyErr (List XVal) := do
  if !pyTruthy data then pure []
  else do
    let hasItems ← pyIn "items" data
    if !hasItems then pure []
    else do
      let items ← data.getItem "items"
      if !pyTruthy items then pure []
      else do
        let hasItem ← pyIn "item" items
        if !hasItem then pure []
        else do
          let gi ← items.getItem "item"
          pure (ensureList gi)

/-- A record built by `search_games` (source lines 89-93). -/
structure SearchItem where
  bgg_id : Int
  name : XVal
  year_published : XVal

/-- Loop body of `search_games` (source lines 87-95).  Note there is no
`try/except` here: a failing conversion aborts the whole response. -/
def searchItemStep (acc : List SearchItem) (item : XVal) :
    Except PyErr (List SearchItem) :=
  match item with
  | .dict _ => do
    let idV ← item.getD "@id" (XVal.i 0)
    let bggId ← pyInt idV
    let nameV ← item.getD "name" (XVal.dict [])
    let name ← nameV.getD "@value" (XVal.s "Unknown")
    let year ← attrVal item "yearpublished"
    if bggId ≠ 0 then pure (acc ++ [⟨bggId, name, year⟩]) else pure acc
  | _ => pure acc

/-- `search_games` applied to an already-fetched decoded response. -/
def searchGames (data : XVal) : Except PyErr (List SearchItem) := do
  let items ← repeatedItems data
  items.foldlM searchItemStep []

/-- `str(x)` for the embedded values; the container cases abbreviate
Python's `repr` output and are reachable only through a malformed primary
name, where only truthiness of the result matters downstream. -/
def pyStr : XVal → String
  | .null => "None"
  | .s t => t
  | .i n => toString n
  | .f q => toString q
  | .list _ => "[...]"
  | .dict _ => "\x7b...\x7d"

/-- The primary-name loop of `_parse_game_item` (source lines 150-154):
the Python variable `primary_name` after the loop, `none` when never
assigned. -/
def findPrimaryName (names : List XVal) : Except PyErr (Option XVal) :=
  match names with
  | [] => .ok none
  | n :: rest =>
    match n with
    | .dict _ => do
      let t ← n.getD "@type" XVal.null
      if pyEqStr t "primary" then do
        let v ← n.getD "@value" XVal.null
        pure (some v)
      else findPrimaryName rest
    | _ => findPrimaryName rest

/-- A record built by `_parse_game_item` (source lines 174-191). -/
structure GameData where
  bgg_id : Int
  name : XVal
  year_published : Option Int
  image_url : XVal
  thumbnail_url : XVal
  description : Option String
  min_players : Option Int
  max_players : Option Int
  playing_time : Option Int
  min_playtime : Option Int
  max_playtime : Option Int
  min_age : Option Int
  rating : Option PyFloat
  rating_count : Option Int
  weight : Option PyFloat
  suggested_players : List (XVal × String)

/-- Body of `_parse_game_item` before its catch-all handler (source lines
140-193). -/
def parseGameItemRaw (item : XVal) : Except PyErr (Option GameData) := do
  let idV ← item.getD "@id" (XVal.i 0)
  let bggId ← pyInt idV
  if bggId = 0 then pure none
  else do
    let namesV ← item.getD "name" (XVal.list [])
    let names := ensureList namesV
    let primary ← findPrimaryName names
    let primaryTruthy := match primary with
      | some v => pyTruthy v
      | none => false
    let primaryV ←
      if !primaryTruthy && !names.isEmpty then
        match names with
        | n0 :: _ =>
          match n0 with
          | .dict _ => n0.getD "@value" XVal.null
          | _ => pure (XVal.s (pyStr n0))
        | [] => pure XVal.null
      else
        pure (match primary with
          | some v => v
          | none => XVal.null)
    let d0 ← item.getD "description" (XVal.s "")
    let desc : Option String ←
      if pyTruthy d0 then do
        let c ← cleanHtml d0
        pure (if c ≠ "" then some (c.take 1000) else none)
      else pure none
    let pollV ← item.getD "poll" (XVal.list [])
    let suggested ← parseSuggestedPlayers (ensureList pollV)
    let statsV ← item.getD "statistics" (XVal.dict [])
    let ratings ← statsV.getD "ratings" (XVal.dict [])
    let ypV ← attrVal item "yearpublished"
    let yp ← safeIntExc ypV
    let img ← item.getD "image" XVal.null
    let thumb ← item.getD "thumbnail" XVal.null
    let minPlV ← attrVal item "minplayers"
    let minPl ← safeIntExc minPlV
    let maxPlV ← attrVal item "maxplayers"
    let maxPl ← safeIntExc maxPlV
    let ptV ← attrVal item "playingtime"
    let pt ← safeIntExc ptV
    let minPtV ← attrVal item "minplaytime"
    let minPt ← safeIntExc minPtV
    let maxPtV ← attrVal item "maxplaytime"
    let maxPt ← safeIntExc maxPtV
    let minAgeV ← attrVal item "minage"
    let minAge ← safeIntExc minAgeV
    let avgV ← attrVal ratings "average"
    let avg ← safeFloatExc avgV
    let urV ← attrVal ratings "usersrated"
    let ur ← safeIntExc urV
    let awV ← attrVal ratings "averageweight"
    let aw ← safeFloatExc awV
    let gname := if pyTruthy primaryV then primaryV else XVal.s "Unknown Game"
    pure (some
      { bgg_id := bggId, name := gname, year_published := yp,
        image_url := img, thumbnail_url := thumb, description := desc,
        min_players := minPl, max_players := maxPl, playing_time := pt,
        min_playtime := minPt, max_playtime := maxPt, min_age := minAge,
        rating := avg, rating_count := ur, weight := aw,
        suggested_players := suggested })

/-- `_parse_game_item` including its `except Exception: return None`. -/
def parseGameItem (item : XVal) : Option GameData :=
  match parseGameItemRaw item with
  | .ok r => r
  | .error _ => none

/-- Loop body of `get_game_details` (source lines 125-134): skip non-dict
items, keep records, and a raised error only skips the one item. -/
def detailsStep (acc : List GameData) (item : XVal) : List GameData :=
  match item with
  | .dict _ =>
    match parseGameItem item with
    | some g => acc ++ [g]
    | none => acc
  | _ => acc

/-- `get_game_details` applied to an already-fetched decoded response. -/
def getGameDetails (data : XVal) : Except PyErr (List GameData) := do
  let items ← repeatedItems data
  pure (items.foldl detailsStep [])

/-- A record built by `get_user_collection` (source lines 276-286). -/
structure CollectionItem where
  bgg_id : Int
  name : XVal
  year_published : Option Int
  thumbnail : XVal
  own : Bool
  wishlist : Bool
  fortrade : Bool
  want : Bool
  rating : Option PyFloat

/-- The `try` body of the collection loop: build the record, then append it
only when `bgg_id` is truthy. -/
def parseCollectionItemRaw (item : XVal) : Except PyErr (Option CollectionItem) := do
  let idV ← item.getD "@objectid" (XVal.i 0)
  let bggId ← pyInt idV
  let nameV ← item.getD "name" (XVal.dict [])
  let name ← nameV.getD "#text" (XVal.s "Unknown")
  let ypV ← item.getD "yearpublished" XVal.null
  let yp ← safeIntExc ypV
  let thumb ← item.getD "thumbnail" XVal.null
  let statusV ← item.getD "status" (XVal.dict [])
  let own ← statusV.getD "@own" XVal.null
  let statusV2 ← item.getD "status" (XVal.dict [])
  let wl ← statusV2.getD "@wishlist" XVal.null
  let statusV3 ← item.getD "status" (XVal.dict [])
  let ft ← statusV3.getD "@fortrade" XVal.null
  let statusV4 ← item.getD "status" (XVal.dict [])
  let wa ← statusV4.getD "@want" XVal.null
  let statsV ← item.getD "stats" (XVal.dict [])
  let ratingV ← attrVal statsV "rating"
  let rating ← safeFloatExc ratingV
  if bggId ≠ 0 then
    pure (some
      { bgg_id := bggId, name := name, year_published := yp,
        thumbnail := thumb, own := pyEqStr own "1",
        wishlist := pyEqStr wl "1", fortrade := pyEqStr ft "1",
        want := pyEqStr wa "1", rating := rating })
  else pure none

/-- The collection loop's `try` with its catch-all: any raised error skips
just this item. -/
def parseCollectionItem (item : XVal) : Option CollectionItem :=
  match parseCollectionItemRaw item with
  | .ok r => r
  | .error _ => none

/-- Loop body of `get_user_collection` (source lines 271-292). -/
def collectionStep (acc : List CollectionItem) (item : XVal) : List CollectionItem :=
  match item with
  | .dict _ =>
    match parseCollectionItem item with
    | some c => acc ++ [c]
    | none => acc
  | _ => acc

/-- `get_user_collection` applied to an already-fetched decoded response. -/
def getUserCollection (data : XVal) : Except PyErr (List CollectionItem) := do
  let items ← repeatedItems data
  pure (items.foldl collectionStep [])

/-- A player sub-record of a play (source lines 333-338). -/
structure PlayerRec where
  name : XVal
  score : XVal
  isNew : Bool
  win : Bool

/-- A record built by `get_user_plays` (source lines 340-352). -/
structure PlayRec where
  play_id : Int
  date : XVal
  quantity : Option Int
  length : Option Int
  incomplete : Bool
  nowinstats : Bool
  location : XVal
  game_id : Int
  game_name : XVal
  players : List PlayerRec
  comments : XVal

/-- The result of `get_user_plays`: the early return on a missing `plays`
key carries no `page` entry, hence the optional page. -/
structure PlaysResult where
  plays : List PlayRec
  total : Option Int
  page : Option Int

/-- The player loop of a play (source lines 331-338); each kept player is
an `isinstance(..., dict)`-checked mapping. -/
def playerStep (acc : List PlayerRec) (p : XVal) : List PlayerRec :=
  match p with
  | .dict l =>
    acc ++ [{ name := dictGetD l "@name" (XVal.s "Unknown"),
              score := dictGetD l "@score" XVal.null,
              isNew := pyEqStr (dictGetD l "@new" XVal.null) "1",
              win := pyEqStr (dictGetD l "@win" XVal.null) "1" }]
  | _ => acc

/-- The `try` body of the play loop (source lines 323-354). -/
def parsePlayRaw (play : XVal) : Except PyErr PlayRec := do
  let hasPlayers ← pyIn "players" play
  let players ←
    if hasPlayers then do
      let pv ← play.getItem "players"
      let hasPlayer ← pyIn "player" pv
      if hasPlayer then do
        let pitems ← pv.getItem "player"
        pure ((ensureList pitems).foldl playerStep [])
      else pure []
    else pure []
  let idV ← play.getD "@id" (XVal.i 0)
  let playId ← pyInt idV
  let date ← play.getD "@date" XVal.null
  let qV ← play.getD "@quantity" (XVal.i 1)
  let quantity ← safeIntExc qV
  let lenV ← play.getD "@length" (XVal.i 0)
  let len ← safeIntExc lenV
  let inc ← play.getD "@incomplete" XVal.null
  let now ← play.getD "@nowinstats" XVal.null
  let loc ← play.getD "@location" XVal.null
  let itemV ← play.getD "item" (XVal.dict [])
  let objV ← itemV.getD "@objectid" (XVal.i 0)
  let gameId ← pyInt objV
  let itemV2 ← play.getD "item" (XVal.dict [])
  let gname ← itemV2.getD "@name" (XVal.s "Unknown")
  let comments ← play.getD "comments" XVal.null
  pure { play_id := playId, date := date, quantity := quantity,
         length := len, incomplete := pyEqStr inc "1",
         nowinstats := pyEqStr now "1", location := loc,
         game_id := gameId, game_name := gname,
         players := players, comments := comments }

/-- One play item including the `isinstance` guard and the per-play
catch-all: `none` means the item contributed nothing to the page. -/
def parsePlayOpt (play : XVal) : Option PlayRec :=
  match play with
  | .dict _ =>
    match parsePlayRaw play with
    | .ok r => some r
    | .error _ => none
  | _ => none

/-- One turn of the play loop: append the parsed record, or skip. -/
def playStepFn (acc : List PlayRec) (p : XVal) : List PlayRec :=
  match parsePlayOpt p with
  | some r => acc ++ [r]
  | none => acc

/-- The play loop of `get_user_plays` (source lines 319-357). -/
def playsFold (items : List XVal) : List PlayRec :=
  items.foldl playStepFn []

/-- `get_user_plays` applied to an already-fetched decoded response
(source lines 306-363). -/
def getUserPlays (data : XVal) (page : Int) : Except PyErr PlaysResult := do
  if !pyTruthy data then pure ⟨[], some 0, none⟩
  else do
    let has ← pyIn "plays" data
    if !has then pure ⟨[], some 0, none⟩
    else do
      let playsData ← data.getItem "plays"
      let totV ← playsData.getD "@total" (XVal.i 0)
      let total ← safeIntExc totV
      let hasPlay ← pyIn "play" playsData
      let plays ←
        if hasPlay then do
          let pitems ← playsData.getItem "play"
          pure (playsFold (ensureList pitems))
        else pure []
      pure ⟨plays, total, some page⟩

/-! ### `_score_search_results` (`cogs/game_search.py`, lines 522-574)

The combined multi-platform result dictionaries are embedded as records
with the four fields the scorer reads.  `difflib.SequenceMatcher(None, a,
b).ratio()` is an external library function; the scorer is parameterized
by it (`sim`), exactly as the spec treats it ("any standard
sequence-similarity measure"). -/

/-- `year_published` in a combined result is either an `int` or a string
(the BGG search path stores the raw attribute string). -/
inductive YearV where
  | ofInt (n : Int)
  | ofStr (t : String)

/-- A combined search-result record, as read by the scorer. -/
structure SearchCandidate where
  name : Option String
  platform : Option String
  rating : Option Rat
  year_published : Option YearV

/-- Truthiness of the `year_published` value (`if result.get('year_published'):`). -/
def yearTruthy : YearV → Bool
  | .ofInt n => n != 0
  | .ofStr t => t != ""

/-- The year coercion step: `if isinstance(year, str) and year.isdigit():
year = int(year)`; `none` means the value is still a non-digit string
afterwards, so the following `isinstance(year, int)` test fails. -/
def normYear : YearV → Option Int
  | .ofInt n => some n
  | .ofStr t =>
    if !t.data.isEmpty && t.data.all Char.isDigit then some (digitsToNat t.data)
    else none

/-- Per-candidate relevance score (source lines 527-570). -/
def scoreResult (sim : String → String → Rat) (query catalog : String)
    (r : SearchCandidate) : Rat :=
  let query_lower := strTrim (strLower query)
  let name_lower := strLower (r.name.getD "")
  let base : Rat :=
    if name_lower = query_lower then 1
    else if strStartsWith name_lower query_lower then 9/10
    else if containsSub query_lower.data name_lower.data then 8/10
    else sim query_lower name_lower * (7/10)
  let platBonus : Rat :=
    if catalog = "bgg" ∧ r.platform = some "bgg" then
      1/10 +
        (match r.rating with
         | some x => if x ≠ 0 then min (x / 10 * (1/10)) (1/10) else 0
         | none => 0)
    else if catalog = "steam" ∧ r.platform = some "steam" then 1/10
    else if catalog = "xbox" ∧ r.platform = some "xbox" then 1/10
    else if catalog = "all" then
      if r.platform = some "bgg" then 1/20 else 0
    else 0
  let yrBonus : Rat :=
    match r.year_published with
    | none => 0
    | some y =>
      if !yearTruthy y then 0
      else
        match normYear y with
        | some n => if n > 2000 then min (((n : Rat) - 2000) / 200) (1/10) else 0
        | none => 0
  base + platBonus + yrBonus

/-- `scored_results.sort(key=lambda x: x[1], reverse=True)` is Python's
stable descending-by-key sort, which is extensionally the unique sort that
is non-increasing in the key and keeps equal-key elements in input order;
it is realized here as the stable descending insertion sort. -/
def insertDesc {α : Type} (x : α × Rat) : List (α × Rat) → List (α × Rat)
  | [] => [x]
  | y :: ys => if y.2 ≤ x.2 then x :: y :: ys else y :: insertDesc x ys

def sortDesc {α : Type} : List (α × Rat) → List (α × Rat)
  | [] => []
  | x :: xs => insertDesc x (sortDesc xs)

/-- The scored-but-unsorted pair list, in input order (the state of
`scored_results` just before the final sort, source lines 524-568). -/
def scoredList (sim : String → String → Rat) (results : List SearchCandidate)
    (query catalog : String) : List (SearchCandidate × Rat) :=
  results.map (fun r => (r, scoreResult sim query catalog r))

/-- `_score_search_results`. -/
def scoreSearchResults (sim : String → String → Rat) (results : List SearchCandidate)
    (query catalog : String) : List (SearchCandidate × Rat) :=
  sortDesc (scoredList sim results query catalog)

/-! ### Specification-side definitions

These follow the spec's words (and, for C1/C7, the claims' words), to be
compared with the definitions translated from the source. -/

/-- Claim C1's base score as stated: query and name compared
case-insensitively with BOTH sides trimmed of surrounding whitespace. -/
def claimBaseBothTrimmed (sim : String → String → Rat) (query : String)
    (name : Option String) : Rat :=
  let q := strTrim (strLower query)
  let n := strTrim (strLower (name.getD ""))
  if n = q then 1
  else if strStartsWith n q then 9/10
  else if containsSub q.data n.data then 8/10
  else sim q n * (7/10)

/-- The base string-match score the code actually computes: the query is
lowercased and trimmed, the name is lowercased but NOT trimmed. -/
def specBaseQueryTrimmed (sim : String → String → Rat) (query : String)
    (name : Option String) : Rat :=
  let q := strTrim (strLower query)
  let n := strLower (name.getD "")
  if n = q then 1
  else if strStartsWith n q then 9/10
  else if containsSub q.data n.data then 8/10
  else sim q n * (7/10)

/-- Platform bonus per spec §4.5 step 2. -/
def specPlatformBonus (catalog : String) (platform : Option String) : Rat :=
  if (catalog = "bgg" ∨ catalog = "steam" ∨ catalog = "xbox") ∧ platform = some catalog then
    1/10
  else if catalog = "all" ∧ platform = some "bgg" then 1/20
  else 0

/-- Rating bonus as the code applies it: only under the `bgg` catalog
filter, for `bgg`-platform candidates with a truthy rating. -/
def specRatingBonus (catalog : String) (platform : Option String)
    (rating : Option Rat) : Rat :=
  if catalog = "bgg" ∧ platform = some "bgg" then
    match rating with
    | some x => if x ≠ 0 then min (x / 10 * (1/10)) (1/10) else 0
    | none => 0
  else 0

/-- Year bonus per spec §4.5 step 4. -/
def specYearBonus (year : Option YearV) : Rat :=
  match year with
  | none => 0
  | some y =>
    if !yearTruthy y then 0
    else
      match normYear y with
      | some n => if n > 2000 then min (((n : Rat) - 2000) / 200) (1/10) else 0
      | none => 0

/-- Claim C1's full score as stated (base with both sides trimmed, plus
the same bonuses). -/
def claimScoreC1 (sim : String → String → Rat) (query catalog : String)
    (r : SearchCandidate) : Rat :=
  claimBaseBothTrimmed sim query r.name + specPlatformBonus catalog r.platform +
    specRatingBonus catalog r.platform r.rating + specYearBonus r.year_published

/-- The scorer with the rating-bonus increment deleted (source line 550
removed), used to state what bonus an input did or did not receive. -/
def scoreResultNoRating (sim : String → String → Rat) (query catalog : String)
    (r : SearchCandidate) : Rat :=
  let query_lower := strTrim (strLower query)
  let name_lower := strLower (r.name.getD "")
  let base : Rat :=
    if name_lower = query_lower then 1
    else if strStartsWith name_lower query_lower then 9/10
    else if containsSub query_lower.data name_lower.data then 8/10
    else sim query_lower name_lower * (7/10)
  let platBonus : Rat :=
    if catalog = "bgg" ∧ r.platform = some "bgg" then 1/10
    else if catalog = "steam" ∧ r.platform = some "steam" then 1/10
    else if catalog = "xbox" ∧ r.platform = some "xbox" then 1/10
    else if catalog = "all" then
      if r.platform = some "bgg" then 1/20 else 0
    else 0
  let yrBonus : Rat :=
    match r.year_published with
    | none => 0
    | some y =>
      if !yearTruthy y then 0
      else
        match normYear y with
        | some n => if n > 2000 then min (((n : Rat) - 2000) / 200) (1/10) else 0
        | none => 0
  base + platBonus + yrBonus

/-- Spec §4.3's per-tally step, written from its words: a `Best` tally
overrides only on strictly more votes than the best seen so far; a
`Recommended` tally upgrades regardless of votes unless `Best` is already
established; anything else changes nothing. -/
def specVoteStep (acc : String × Int) (v : String × Int) : String × Int :=
  if v.1 = "Best" then
    if v.2 > acc.2 then ("Best", v.2) else acc
  else if v.1 = "Recommended" then
    if acc.1 ≠ "Best" then ("Recommended", acc.2) else acc
  else acc

/-- Spec §4.3's aggregation of one player-count label's tallies. -/
def specAggregateVotes (votes : List (String × Int)) : String :=
  (votes.foldl specVoteStep ("Not Recommended", 0)).1

/-- Encoding of one `(recommendation_value, vote_count)` tally as the
decoded XML vote element. -/
def encodeVote (v : String × Int) : XVal :=
  XVal.dict [("@value", XVal.s v.1), ("@numvotes", XVal.i v.2)]

/-- Encoding of one player-count label with its tallies. -/
def encodeCount (c : String × List (String × Int)) : XVal :=
  XVal.dict [("@numplayers", XVal.s c.1), ("result", XVal.list (c.2.map encodeVote))]

/-- Encoding of a whole `suggested_numplayers` poll. -/
def encodePoll (counts : List (String × List (String × Int))) : XVal :=
  XVal.dict [("@name", XVal.s "suggested_numplayers"),
             ("results", XVal.list (counts.map encodeCount))]

/-! ### Auxiliary predicates and well-formed HTML documents for C9 -/

/-- No two adjacent whitespace characters. -/
def noDoubleWs : List Char → Bool
  | [] => true
  | [_] => true
  | a :: b :: r => !(a.isWhitespace && b.isWhitespace) && noDoubleWs (b :: r)

/-- An HTML fragment made of text runs, markup tags and character
references, used to state what "tags stripped, entities decoded" means. -/
inductive HtmlTok where
  | text (t : String)
  | tag (body : String)
  | ent (name : String)

/-- Well-formedness making the rendering unambiguous: text contains no
`<`/`&`, a tag body opens with a letter and contains no `>`, a character
reference uses name characters and is one the decoder resolves. -/
def wfTok : HtmlTok → Prop
  | .text t => ∀ c ∈ t.data, c ≠ '<' ∧ c ≠ '&'
  | .tag body => tagOpens body.data = true ∧ ∀ c ∈ body.data, c ≠ '>'
  | .ent name =>
    (∀ c ∈ name.data, entNameChar c = true) ∧ (decodeEntity name.data).isSome

/-- The concrete characters a token denotes in the source markup. -/
def renderTok : HtmlTok → List Char
  | .text t => t.data
  | .tag body => '<' :: body.data ++ ['>']
  | .ent name => '&' :: name.data ++ [';']

/-- The text a token contributes after extraction. -/
def decodeTok : HtmlTok → List Char
  | .text t => t.data
  | .tag _ => []
  | .ent name => (decodeEntity name.data).getD []

def renderDoc (doc : List HtmlTok) : String :=
  String.mk (doc.flatMap renderTok)

def decodeDoc (doc : List HtmlTok) : String :=
  String.mk (doc.flatMap decodeTok)

/-- Whitespace collapse plus strip, applied to already-extracted text (the
last two steps of `_clean_html`). -/
def normalizeWs (t : String) : String :=
  String.mk (trimWsList (squashWsAux false t.data))

/-! ## Helper lemmas -/

theorem ratFloor_eq_intFloor (q : Rat) : Rat.floor q = ⌊q⌋ := by
  rw [Rat.floor_def']
  exact Rat.floor_def.symm

theorem ratTrunc_eq (q : Rat) : ratTrunc q = if q < 0 then ⌈q⌉ else ⌊q⌋ := by
  unfold ratTrunc
  rw [ratFloor_eq_intFloor, ratFloor_eq_intFloor, Int.floor_neg]
  simp

theorem ratTrunc_intCast (n : Int) : ratTrunc (n : Rat) = n := by
  rw [ratTrunc_eq]
  split <;> simp

theorem safeIntExc_int (n : Int) : safeIntExc (XVal.i n) = .ok (some n) := by
  simp [safeIntExc, isNoneOrEmptyStr, pyFloat, intOfPyFloat, bind, Except.bind,
    ratTrunc_intCast]

theorem parseFloatStr_error {t : String} {e : PyErr}
    (h : parseFloatStr t = .error e) : e = .valueError := by
  simp only [parseFloatStr] at h
  split at h
  · exact absurd h (by simp)
  · split at h
    · exact absurd h (by simp)
    · split at h
      · exact absurd h (by simp)
      · simpa using h.symm

theorem pyFloat_error {v : XVal} {e : PyErr}
    (h : pyFloat v = .error e) : e = .valueError ∨ e = .typeError := by
  cases v with
  | s t => exact Or.inl (parseFloatStr_error h)
  | i n => exact absurd h (by simp [pyFloat])
  | f q => exact absurd h (by simp [pyFloat])
  | null => simp [pyFloat] at h; exact Or.inr h.symm
  | list l => simp [pyFloat] at h; exact Or.inr h.symm
  | dict l => simp [pyFloat] at h; exact Or.inr h.symm

theorem safeFloatExc_total (v : XVal) : ∃ r, safeFloatExc v = .ok r := by
  unfold safeFloatExc
  split
  · exact ⟨none, rfl⟩
  · cases hp : pyFloat v with
    | ok q => exact ⟨some q, by simp [hp]⟩
    | error e =>
      rcases pyFloat_error hp with he | he <;> subst he <;>
        exact ⟨none, by simp [hp]⟩

theorem cleanHtml_str_total (t : String) : ∃ u, cleanHtml (XVal.s t) = .ok u := by
  unfold cleanHtml
  split
  · exact ⟨"", rfl⟩
  · exact ⟨cleanHtmlStr t, rfl⟩

/-! ## Helper lemmas: the stable descending sort -/

theorem insertDesc_perm {α : Type} (x : α × Rat) (l : List (α × Rat)) :
    (insertDesc x l).Perm (x :: l) := by
  induction l with
  | nil => simp [insertDesc]
  | cons y ys ih =>
    simp only [insertDesc]
    split
    · exact List.Perm.refl _
    · exact (ih.cons y).trans (List.Perm.swap x y ys)

theorem sortDesc_perm {α : Type} (l : List (α × Rat)) : (sortDesc l).Perm l := by
  induction l with
  | nil => simp [sortDesc]
  | cons x xs ih => exact (insertDesc_perm x (sortDesc xs)).trans (ih.cons x)

theorem mem_insertDesc {α : Type} {z x : α × Rat} {l : List (α × Rat)} :
    z ∈ insertDesc x l ↔ z = x ∨ z ∈ l := by
  have := (insertDesc_perm x l).mem_iff (a := z)
  simpa using this

theorem insertDesc_sorted {α : Type} (x : α × Rat) (l : List (α × Rat))
    (h : l.Pairwise (fun a b => b.2 ≤ a.2)) :
    (insertDesc x l).Pairwise (fun a b => b.2 ≤ a.2) := by
  induction l with
  | nil => simp [insertDesc]
  | cons y ys ih =>
    rw [List.pairwise_cons] at h
    simp only [insertDesc]
    split
    next hle =>
      refine List.pairwise_cons.2 ⟨?_, List.pairwise_cons.2 ⟨h.1, h.2⟩⟩
      intro z hz
      rcases List.mem_cons.1 hz with hz | hz
      · exact hz ▸ hle
      · exact (h.1 z hz).trans hle
    next hlt =>
      refine List.pairwise_cons.2 ⟨?_, ih h.2⟩
      intro z hz
      rcases mem_insertDesc.1 hz with hz | hz
      · exact hz ▸ le_of_lt (lt_of_not_le hlt)
      · exact h.1 z hz

theorem sortDesc_sorted {α : Type} (l : List (α × Rat)) :
    (sortDesc l).Pairwise (fun a b => b.2 ≤ a.2) := by
  induction l with
  | nil => simp [sortDesc]
  | cons x xs ih => exact insertDesc_sorted x (sortDesc xs) ih

theorem insertDesc_filter_eq {α : Type} (x : α × Rat) (l : List (α × Rat)) :
    (insertDesc x l).filter (fun p => decide (p.2 = x.2)) =
      x :: l.filter (fun p => decide (p.2 = x.2)) := by
  induction l with
  | nil => simp [insertDesc]
  | cons y ys ih =>
    simp only [insertDesc]
    split
    next hle => simp
    next hlt =>
      have hne : ¬ (y.2 = x.2) := fun hcontra => hlt (le_of_eq hcontra)
      simp [List.filter_cons, hne, ih]

theorem insertDesc_filter_ne {α : Type} (x : α × Rat) (l : List (α × Rat))
    (q : Rat) (hq : ¬ (x.2 = q)) :
    (insertDesc x l).filter (fun p => decide (p.2 = q)) =
      l.filter (fun p => decide (p.2 = q)) := by
  induction l with
  | nil => simp [insertDesc, hq]
  | cons y ys ih =>
    simp only [insertDesc]
    split
    · simp [List.filter_cons, hq]
    · simp [List.filter_cons, ih]

theorem sortDesc_filter {α : Type} (l : List (α × Rat)) (q : Rat) :
    (sortDesc l).filter (fun p => decide (p.2 = q)) =
      l.filter (fun p => decide (p.2 = q)) := by
  induction l with
  | nil => rfl
  | cons x xs ih =>
    simp only [sortDesc]
    by_cases hx : x.2 = q
    · rw [← hx] at ih ⊢
      rw [insertDesc_filter_eq, ih, List.filter_cons]
      simp
    · rw [insertDesc_filter_ne x _ q hx, ih, List.filter_cons]
      simp [hx]

theorem platBonus_decomp (catalog : String) (platform : Option String)
    (rating : Option Rat) :
    (if catalog = "bgg" ∧ platform = some "bgg" then
        1/10 +
          (match rating with
           | some x => if x ≠ 0 then min (x / 10 * (1/10)) (1/10) else 0
           | none => 0)
      else if catalog = "steam" ∧ platform = some "steam" then 1/10
      else if catalog = "xbox" ∧ platform = some "xbox" then 1/10
      else if catalog = "all" then
        if platform = some "bgg" then 1/20 else 0
      else (0:Rat))
    = specPlatformBonus catalog platform + specRatingBonus catalog platform rating := by
  unfold specPlatformBonus specRatingBonus
  cases rating <;> split_ifs <;> simp_all

set_option maxHeartbeats 1000000 in
theorem score_decomp (sim : String → String → Rat) (query catalog : String)
    (r : SearchCandidate) :
    scoreResult sim query catalog r =
      specBaseQueryTrimmed sim query r.name + specPlatformBonus catalog r.platform +
        specRatingBonus catalog r.platform r.rating + specYearBonus r.year_published := by
  unfold scoreResult specBaseQueryTrimmed specYearBonus
  dsimp only
  rw [platBonus_decomp]
  ring

set_option maxHeartbeats 1000000 in
theorem scoreNoRating_decomp (sim : String → String → Rat) (query catalog : String)
    (r : SearchCandidate) :
    scoreResultNoRating sim query catalog r =
      specBaseQueryTrimmed sim query r.name + specPlatformBonus catalog r.platform +
        specYearBonus r.year_published := by
  unfold scoreResultNoRating specBaseQueryTrimmed specYearBonus specPlatformBonus
  dsimp only
  split_ifs <;> simp_all

/-! ## Helper lemmas: the suggested-players aggregation over encoded polls -/

theorem voteStep_encode (acc : String × Int) (v : String × Int) :
    voteStep acc (encodeVote v) = .ok (specVoteStep acc v) := by
  simp only [voteStep, encodeVote, XVal.getD, dictGetD, dictLookup, bind, Except.bind,
    specVoteStep]
  simp only [safeIntExc_int, pyEqStr]
  simp
  by_cases hB : v.1 = "Best"
  · simp only [hB, safeIntExc_int, pure, Except.pure, reduceIte]
    split <;> simp
  · by_cases hR : v.1 = "Recommended"
    · by_cases hA : acc.1 = "Best" <;>
        simp [hB, hR, hA, safeIntExc_int, pure, Except.pure]
    · simp [hB, hR, safeIntExc_int, pure, Except.pure]

theorem votesFold_encode (votes : List (String × Int)) (acc : String × Int) :
    List.foldlM voteStep acc (votes.map encodeVote) =
      .ok (votes.foldl specVoteStep acc) := by
  induction votes generalizing acc with
  | nil => rfl
  | cons v rest ih =>
    simp only [List.map_cons, List.foldlM_cons, voteStep_encode, List.foldl_cons,
      bind, Except.bind]
    exact ih (specVoteStep acc v)

theorem resultStep_encode (suggested : List (XVal × String))
    (c : String × List (String × Int)) (hne : c.1 ≠ "")
    (hfresh : suggested.any (fun p => scalarKeyEq p.1 (XVal.s c.1)) = false) :
    resultStep suggested (encodeCount c) =
      .ok (suggested ++ [(XVal.s c.1, specAggregateVotes c.2)]) := by
  simp only [resultStep, encodeCount, XVal.getD, dictGetD, dictLookup, bind, Except.bind]
  simp only [reduceIte, Option.getD_some]
  have ht : pyTruthy (XVal.s c.1) = true := by
    simp [pyTruthy, hne]
  rw [if_neg (by simp [ht])]
  have hv := votesFold_encode c.2 ("Not Recommended", 0)
  simp [ensureList, bind, Except.bind, dictSet, hfresh, specAggregateVotes, hv]

theorem suggestedFold_encode (counts : List (String × List (String × Int)))
    (acc : List (XVal × String))
    (hne : ∀ c ∈ counts, c.1 ≠ "")
    (hfresh : ∀ c ∈ counts, ∀ p ∈ acc, scalarKeyEq p.1 (XVal.s c.1) = false)
    (hnd : (counts.map (fun c => c.1)).Nodup) :
    List.foldlM resultStep acc (counts.map encodeCount) =
      .ok (acc ++ counts.map (fun c => (XVal.s c.1, specAggregateVotes c.2))) := by
  induction counts generalizing acc with
  | nil => simp [pure, Except.pure]
  | cons c rest ih =>
    simp only [List.map_cons, List.foldlM_cons]
    rw [resultStep_encode acc c (hne c (by simp))
      (by
        rw [List.any_eq_false]
        intro p hp
        simp [hfresh c (by simp) p hp])]
    simp only [bind, Except.bind]
    rw [ih (acc ++ [(XVal.s c.1, specAggregateVotes c.2)])
      (fun c' hc' => hne c' (List.mem_cons_of_mem _ hc'))
      (by
        intro c' hc' p hp
        rcases List.mem_append.1 hp with hp | hp
        · exact hfresh c' (List.mem_cons_of_mem _ hc') p hp
        · have hpc : p = (XVal.s c.1, specAggregateVotes c.2) := by simpa using hp
          subst hpc
          have hcc : c.1 ≠ c'.1 := by
            rw [List.map_cons, List.nodup_cons] at hnd
            intro he
            exact hnd.1 (he ▸ List.mem_map_of_mem (fun c => c.1) hc')
          simp [scalarKeyEq, hcc])
      (by
        rw [List.map_cons, List.nodup_cons] at hnd
        exact hnd.2)]
    simp

theorem specVote_threshold (votes : List (String × Int)) (rec : String) (b : Int) :
    (votes.foldl specVoteStep (rec, b)).2 =
      votes.foldl (fun acc v => if v.1 = "Best" then max acc v.2 else acc) b := by
  induction votes generalizing rec b with
  | nil => rfl
  | cons v rest ih =>
    simp only [List.foldl_cons, specVoteStep]
    by_cases hB : v.1 = "Best"
    · rw [if_pos hB, if_pos hB]
      by_cases hgt : v.2 > b
      · rw [if_pos hgt, ih, max_eq_right (le_of_lt hgt)]
      · rw [if_neg hgt, ih, max_eq_left (le_of_not_lt hgt)]
    · rw [if_neg hB, if_neg hB]
      by_cases hR : v.1 = "Recommended"
      · rw [if_pos hR]
        by_cases hA : rec ≠ "Best"
        · rw [if_pos hA, ih]
        · rw [if_neg hA, ih]
      · rw [if_neg hR, ih]

/-! ## Helper lemmas: response-parser loops -/

theorem foldl_append_skip {α β : Type} (step : β → α → β) (b : α)
    (hb : ∀ acc, step acc b = acc) (l1 l2 : List α) (a : β) :
    List.foldl step a (l1 ++ b :: l2) = List.foldl step a (l1 ++ l2) := by
  rw [List.foldl_append, List.foldl_append, List.foldl_cons, hb]

theorem foldlM_append_skip {α β : Type} (step : β → α → Except PyErr β) (b : α)
    (hb : ∀ acc, step acc b = .ok acc) (l1 l2 : List α) (a : β) :
    List.foldlM step a (l1 ++ b :: l2) = List.foldlM step a (l1 ++ l2) := by
  induction l1 generalizing a with
  | nil => simp [List.foldlM_cons, hb, bind, Except.bind]
  | cons x xs ih =>
    simp only [List.cons_append, List.foldlM_cons, bind, Except.bind]
    cases hx : step a x with
    | error e => rfl
    | ok a2 => exact ih a2

theorem foldl_accum_filterMap {α β : Type} (f : α → Option β)
    (step : List β → α → List β)
    (hstep : ∀ acc p, step acc p = (f p).elim acc (fun r => acc ++ [r]))
    (l : List α) (a : List β) :
    List.foldl step a l = a ++ l.filterMap f := by
  induction l generalizing a with
  | nil => simp
  | cons x xs ih => cases hf : f x <;> simp [hstep, hf, ih]

theorem playStepFn_elim (acc : List PlayRec) (p : XVal) :
    playStepFn acc p = (parsePlayOpt p).elim acc (fun r => acc ++ [r]) := by
  unfold playStepFn
  cases parsePlayOpt p <;> rfl

theorem playsFold_eq_filterMap (items : List XVal) :
    playsFold items = items.filterMap parsePlayOpt := by
  unfold playsFold
  have h := foldl_accum_filterMap parsePlayOpt playStepFn playStepFn_elim items []
  simpa using h

theorem dictLookup_any {l : List (String × XVal)} {k : String} {v : XVal}
    (h : dictLookup l k = some v) : (l.any fun p => p.1 == k) = true := by
  induction l with
  | nil => simp [dictLookup] at h
  | cons p rest ih =>
    simp only [dictLookup] at h
    by_cases hp : p.1 = k
    · simp [hp]
    · rw [if_neg hp] at h
      simp [ih h, hp]

theorem dictLookup_none_any {l : List (String × XVal)} {k : String}
    (h : dictLookup l k = none) : (l.any fun p => p.1 == k) = false := by
  induction l with
  | nil => simp
  | cons p rest ih =>
    simp only [dictLookup] at h
    by_cases hp : p.1 = k
    · rw [if_pos hp] at h
      exact absurd h (by simp)
    · rw [if_neg hp] at h
      simp [ih h, hp]

theorem detailsStep_skip {b : XVal} (hb : parseGameItem b = none)
    (acc : List GameData) : detailsStep acc b = acc := by
  cases b <;> simp [detailsStep, hb]

theorem collectionStep_skip {b : XVal} (hb : parseCollectionItem b = none)
    (acc : List CollectionItem) : collectionStep acc b = acc := by
  cases b <;> simp [collectionStep, hb]

set_option maxHeartbeats 2000000 in
/-- Field extraction from a successfully parsed play: `play_id` is the
converted `@id` (default `0`) and `length` is `safe_int` of the `@length`
attribute (default `0`). -/
theorem parsePlay_fields (l : List (String × XVal)) (r : PlayRec)
    (h : parsePlayRaw (XVal.dict l) = .ok r) :
    pyInt (dictGetD l "@id" (XVal.i 0)) = .ok r.play_id
  ∧ safeIntExc (dictGetD l "@length" (XVal.i 0)) = .ok r.length := by
  simp only [parsePlayRaw, XVal.getD, XVal.getItem, pyIn, bind, Except.bind, pure,
    Except.pure] at h
  repeat' split at h
  all_goals first
    | (rw [Except.ok.injEq] at h
       subst h
       exact ⟨by assumption, by assumption⟩)
    | exact absurd h (by simp)

theorem searchItemStep_noid (attrs : List (String × XVal)) (acc : List SearchItem)
    (h1 : dictLookup attrs "@id" = none) (h2 : dictLookup attrs "name" = none)
    (h3 : dictLookup attrs "yearpublished" = none) :
    searchItemStep acc (XVal.dict attrs) = .ok acc := by
  simp [searchItemStep, XVal.getD, dictGetD, attrVal, h1, h2, h3, bind, Except.bind,
    pyInt, pure, Except.pure]

set_option maxHeartbeats 2000000 in
/-- A collection record is only returned with the converted, nonzero
`@objectid`. -/
theorem parseCollection_fields (l : List (String × XVal)) (r : Option CollectionItem)
    (h : parseCollectionItemRaw (XVal.dict l) = .ok r) :
    ∀ c, r = some c →
      pyInt (dictGetD l "@objectid" (XVal.i 0)) = .ok c.bgg_id ∧ c.bgg_id ≠ 0 := by
  simp only [parseCollectionItemRaw, XVal.getD, bind, Except.bind, pure,
    Except.pure] at h
  repeat' split at h
  all_goals first
    | (rw [Except.ok.injEq] at h
       subst h
       intro c hc
       first
         | (rw [Option.some.injEq] at hc
            subst hc
            exact ⟨by assumption, by assumption⟩)
         | exact absurd hc (by simp))
    | exact absurd h (by simp)

theorem parseCollectionItem_noid (attrs : List (String × XVal))
    (h : dictLookup attrs "@objectid" = none) :
    parseCollectionItem (XVal.dict attrs) = none := by
  unfold parseCollectionItem
  cases hy : parseCollectionItemRaw (XVal.dict attrs) with
  | error e => rfl
  | ok r =>
    cases r with
    | none => rfl
    | some c =>
      have hf := parseCollection_fields attrs (some c) hy c rfl
      rw [show dictGetD attrs "@objectid" (XVal.i 0) = XVal.i 0 by
        simp [dictGetD, h]] at hf
      have : (0 : Int) = c.bgg_id := by
        have h0 : pyInt (XVal.i 0) = .ok 0 := rfl
        rw [h0] at hf
        exact Except.ok.inj hf.1
      exact absurd this.symm hf.2

/-! ## Claim theorems -/

/-- C5 (counterexample): a search-response item whose `@id` is the
non-numeric string `"abc"` makes `search_games` raise `ValueError`,
aborting the whole response — the well-formed sibling item, which parses
fine on its own, is lost rather than returned. -/
theorem C5_counterexample :
    searchGames (XVal.dict [("items", XVal.dict [("item", XVal.list
        [XVal.dict [("@id", XVal.s "abc"),
                    ("name", XVal.dict [("@value", XVal.s "Bad")])],
         XVal.dict [("@id", XVal.s "174430"),
                    ("name", XVal.dict [("@value", XVal.s "Gloomhaven")])]])])])
      = .error .valueError
  ∧ searchGames (XVal.dict [("items", XVal.dict [("item",
        XVal.dict [("@id", XVal.s "174430"),
                   ("name", XVal.dict [("@value", XVal.s "Gloomhaven")])])])])
      = .ok [⟨174430, XVal.s "Gloomhaven", XVal.null⟩] :=
  ⟨rfl, rfl⟩

/-- C5 (amended): a malformed item is skipped and the remaining sibling
items still parse for thing-detail, collection and play items (whose loops
have per-item handlers), and for a search item whose numeric id is merely
missing; but a search item with a NON-numeric id raises and aborts the
whole search response, because that loop has no per-item handler. -/
theorem C5_amended_malformed_items (b : XVal) (l1 l2 : List XVal) :
    (parseGameItem b = none →
      List.foldl detailsStep [] (l1 ++ b :: l2) = List.foldl detailsStep [] (l1 ++ l2))
  ∧ (parseCollectionItem b = none →
      List.foldl collectionStep [] (l1 ++ b :: l2) =
        List.foldl collectionStep [] (l1 ++ l2))
  ∧ (parsePlayOpt b = none → playsFold (l1 ++ b :: l2) = playsFold (l1 ++ l2))
  ∧ parseGameItem (XVal.dict [("@id", XVal.s "abc")]) = none
  ∧ parseGameItem (XVal.dict []) = none
  ∧ parseCollectionItem (XVal.dict [("@objectid", XVal.s "abc")]) = none
  ∧ parsePlayOpt (XVal.dict [("@id", XVal.s "abc")]) = none
  ∧ (∀ (attrs : List (String × XVal)) (acc : List SearchItem),
      dictLookup attrs "@id" = none → dictLookup attrs "name" = none →
      dictLookup attrs "yearpublished" = none →
      List.foldlM searchItemStep acc (XVal.dict attrs :: l2) =
        List.foldlM searchItemStep acc l2)
  ∧ (∀ (attrs : List (String × XVal)) (acc : List SearchItem),
      pyInt (dictGetD attrs "@id" (XVal.i 0)) = .error .valueError →
      List.foldlM searchItemStep acc (XVal.dict attrs :: l2) =
        .error .valueError) := by
  refine ⟨?_, ?_, ?_, rfl, rfl, rfl, rfl, ?_, ?_⟩
  · intro hb
    exact foldl_append_skip detailsStep b (detailsStep_skip hb) l1 l2 []
  · intro hb
    exact foldl_append_skip collectionStep b (collectionStep_skip hb) l1 l2 []
  · intro hb
    unfold playsFold
    exact foldl_append_skip playStepFn b (fun acc => by simp [playStepFn, hb]) l1 l2 []
  · intro attrs acc h1 h2 h3
    simp only [List.foldlM_cons, searchItemStep_noid attrs acc h1 h2 h3, bind,
      Except.bind]
  · intro attrs acc hpy
    simp [List.foldlM_cons, searchItemStep, XVal.getD, bind, Except.bind, hpy]

/-- C5 (witness): the amended skip behaviour at concrete inputs — a
thing-detail item with a non-numeric id is dropped while its sibling is
kept, and an id-less search item is skipped. -/
theorem C5_amended_malformed_items_witness :
    List.foldl detailsStep []
        ([] ++ XVal.dict [("@id", XVal.s "abc")] :: [XVal.dict [("@id", XVal.s "7")]]) =
      List.foldl detailsStep [] ([] ++ [XVal.dict [("@id", XVal.s "7")]])
  ∧ List.foldlM searchItemStep []
        (XVal.dict [] ::
          [XVal.dict [("@id", XVal.s "7"), ("name", XVal.dict [("@value", XVal.s "Y")])]]) =
      List.foldlM searchItemStep []
        [XVal.dict [("@id", XVal.s "7"), ("name", XVal.dict [("@value", XVal.s "Y")])]] :=
  ⟨(C5_amended_malformed_items (XVal.dict [("@id", XVal.s "abc")]) []
      [XVal.dict [("@id", XVal.s "7")]]).1 rfl,
   (C5_amended_malformed_items (XVal.dict [("@id", XVal.s "abc")]) []
      [XVal.dict [("@id", XVal.s "7"), ("name", XVal.dict [("@value", XVal.s "Y")])]]).2.2.2.2.2.2.2.1
      [] [] rfl rfl rfl⟩

/-- C6: a response whose repeated element is a single mapping parses
exactly like the equivalent response carrying a one-element list, for both
`search_games` and `get_user_plays`; an absent repeated element yields the
empty list (with the play total still taken from `@total`). -/
theorem C6_single_item_wrapping :
    (∀ m attrs : List (String × XVal),
      searchGames (XVal.dict [("items", XVal.dict (("item", XVal.dict m) :: attrs))]) =
        searchGames
          (XVal.dict [("items", XVal.dict (("item", XVal.list [XVal.dict m]) :: attrs))]))
  ∧ (∀ attrs : List (String × XVal), dictLookup attrs "item" = none →
      searchGames (XVal.dict [("items", XVal.dict attrs)]) = .ok [])
  ∧ (∀ (m attrs : List (String × XVal)) (page : Int),
      getUserPlays (XVal.dict [("plays", XVal.dict (("play", XVal.dict m) :: attrs))]) page =
        getUserPlays
          (XVal.dict [("plays", XVal.dict (("play", XVal.list [XVal.dict m]) :: attrs))]) page)
  ∧ (∀ (attrs : List (String × XVal)) (t page : Int),
      dictLookup attrs "play" = none → dictLookup attrs "@total" = some (XVal.i t) →
      getUserPlays (XVal.dict [("plays", XVal.dict attrs)]) page =
        .ok ⟨[], some t, some page⟩) := by
  refine ⟨fun m attrs => rfl, ?_, fun m attrs page => rfl, ?_⟩
  · intro attrs h
    have hany := dictLookup_none_any h
    simp [searchGames, repeatedItems, pyTruthy, pyIn, XVal.getItem, bind, Except.bind,
      dictLookup, hany, pure, Except.pure]
  · intro attrs t page hplay htot
    have hany := dictLookup_none_any hplay
    simp [getUserPlays, pyTruthy, pyIn, XVal.getItem, XVal.getD, dictGetD, dictLookup,
      htot, hany, safeIntExc_int, bind, Except.bind, pure, Except.pure]

/-- C6 (witness): the parts with hypotheses, at concrete inputs — a
response with no `item` key, and a plays response declaring `@total = 3`
with no `play` element. -/
theorem C6_single_item_wrapping_witness :
    searchGames (XVal.dict [("items", XVal.dict [("@termsofuse", XVal.s "x")])]) = .ok []
  ∧ getUserPlays (XVal.dict [("plays", XVal.dict [("@total", XVal.i 3)])]) 1 =
      .ok ⟨[], some 3, some 1⟩ :=
  ⟨C6_single_item_wrapping.2.1 [("@termsofuse", XVal.s "x")] rfl,
   C6_single_item_wrapping.2.2.2 [("@total", XVal.i 3)] 3 1 rfl rfl⟩

/-- C8: the play parser reports as total the response's declared `@total`
attribute — independent of how many play items the page carries — returns
exactly the records of the page's parseable play items, and a play whose
`@length` attribute is absent gets `length = 0`. -/
theorem C8_plays_total_and_length :
    (∀ (attrs : List (String × XVal)) (t page : Int) (v : XVal),
      dictLookup attrs "@total" = some (XVal.i t) →
      dictLookup attrs "play" = some v →
      getUserPlays (XVal.dict [("plays", XVal.dict attrs)]) page =
        .ok ⟨(ensureList v).filterMap parsePlayOpt, some t, some page⟩)
  ∧ (∀ items : List XVal, playsFold items = items.filterMap parsePlayOpt)
  ∧ (∀ (l : List (String × XVal)) (r : PlayRec), dictLookup l "@length" = none →
      parsePlayOpt (XVal.dict l) = some r → r.length = some 0) := by
  refine ⟨?_, playsFold_eq_filterMap, ?_⟩
  · intro attrs t page v htot hplay
    have hany := dictLookup_any hplay
    simp [getUserPlays, pyTruthy, pyIn, XVal.getItem, XVal.getD, dictGetD, dictLookup,
      htot, hplay, hany, safeIntExc_int, bind, Except.bind, pure, Except.pure,
      playsFold_eq_filterMap]
  · intro l r hlen hp
    simp only [parsePlayOpt] at hp
    have hraw : parsePlayRaw (XVal.dict l) = .ok r := by
      cases hraw : parsePlayRaw (XVal.dict l) with
      | error e => rw [hraw] at hp; exact absurd hp (by simp)
      | ok r2 => rw [hraw] at hp; rw [Option.some.injEq] at hp; rw [hp]
    have hf := (parsePlay_fields l r hraw).2
    rw [show dictGetD l "@length" (XVal.i 0) = XVal.i 0 by simp [dictGetD, hlen]] at hf
    rw [safeIntExc_int] at hf
    exact (Except.ok.inj hf).symm

/-- C8 (witness): a page declaring `@total = 57` while carrying ten play
items reports total `57` and exactly ten play records. -/
theorem C8_plays_total_and_length_witness :
    getUserPlays
        (XVal.dict [("plays", XVal.dict
          [("@total", XVal.i 57),
           ("play", XVal.list (List.replicate 10 (XVal.dict [])))])]) 1 =
      .ok ⟨(ensureList (XVal.list (List.replicate 10 (XVal.dict [])))).filterMap
            parsePlayOpt, some 57, some 1⟩
  ∧ ((List.replicate 10 (XVal.dict [])).filterMap parsePlayOpt).length = 10 :=
  ⟨C8_plays_total_and_length.1
      [("@total", XVal.i 57), ("play", XVal.list (List.replicate 10 (XVal.dict [])))]
      57 1 (XVal.list (List.replicate 10 (XVal.dict []))) rfl rfl,
   rfl⟩

/-- C10: a play item with no `@id` attribute is still kept, with
`play_id = 0` — two such plays on one page both appear with `play_id = 0`,
so `play_id` is not unique — whereas the search and collection parsers
drop any entry whose numeric id is missing or `0`. -/
theorem C10_idless_plays_kept :
    (∀ (l : List (String × XVal)) (r : PlayRec), dictLookup l "@id" = none →
      parsePlayOpt (XVal.dict l) = some r → r.play_id = 0)
  ∧ (playsFold [XVal.dict [("@date", XVal.s "2024-05-01")],
        XVal.dict [("@location", XVal.s "Home")]]).map (fun p => p.play_id) = [0, 0]
  ∧ (∀ (attrs : List (String × XVal)) (acc : List SearchItem) (l : List XVal),
      dictLookup attrs "@id" = none → dictLookup attrs "name" = none →
      dictLookup attrs "yearpublished" = none →
      List.foldlM searchItemStep acc (XVal.dict attrs :: l) =
        List.foldlM searchItemStep acc l)
  ∧ (∀ (attrs : List (String × XVal)) (acc : List CollectionItem),
      dictLookup attrs "@objectid" = none → collectionStep acc (XVal.dict attrs) = acc)
  ∧ searchGames (XVal.dict [("items", XVal.dict [("item",
      XVal.dict [("@id", XVal.s "0"),
                 ("name", XVal.dict [("@value", XVal.s "X")])])])]) = .ok []
  ∧ (∀ acc : List CollectionItem,
      collectionStep acc (XVal.dict [("@objectid", XVal.s "0")]) = acc) := by
  refine ⟨?_, rfl, ?_, ?_, rfl, fun acc => rfl⟩
  · intro l r hid hp
    simp only [parsePlayOpt] at hp
    have hraw : parsePlayRaw (XVal.dict l) = .ok r := by
      cases hraw : parsePlayRaw (XVal.dict l) with
      | error e => rw [hraw] at hp; exact absurd hp (by simp)
      | ok r2 => rw [hraw] at hp; rw [Option.some.injEq] at hp; rw [hp]
    have hf := (parsePlay_fields l r hraw).1
    rw [show dictGetD l "@id" (XVal.i 0) = XVal.i 0 by simp [dictGetD, hid]] at hf
    have h0 : pyInt (XVal.i 0) = .ok 0 := rfl
    rw [h0] at hf
    exact (Except.ok.inj hf).symm
  · intro attrs acc l h1 h2 h3
    simp only [List.foldlM_cons, searchItemStep_noid attrs acc h1 h2 h3, bind,
      Except.bind]
  · intro attrs acc h
    simp [collectionStep, parseCollectionItem_noid attrs h]

/-- C10 (witness): the play-id default at a concrete id-less play, and the
collection/search drops at concrete id-less entries. -/
theorem C10_idless_plays_kept_witness :
    (∃ r, parsePlayOpt (XVal.dict [("@date", XVal.s "2024-05-01")]) = some r ∧
      r.play_id = 0)
  ∧ collectionStep [] (XVal.dict [("name", XVal.dict [("#text", XVal.s "NoId")])]) = [] := by
  constructor
  · have hs : (parsePlayOpt (XVal.dict [("@date", XVal.s "2024-05-01")])).isSome = true := rfl
    obtain ⟨r, hr⟩ := Option.isSome_iff_exists.1 hs
    exact ⟨r, hr, C10_idless_plays_kept.1 [("@date", XVal.s "2024-05-01")] r rfl hr⟩
  · exact C10_idless_plays_kept.2.2.2.1 [("name", XVal.dict [("#text", XVal.s "NoId")])] [] rfl

/-- C3: for every suggested-player-count poll (encoded with distinct
nonempty labels), the aggregator processes each label independently and
equals the spec-side fold whose step starts from `Not Recommended`, lets a
`Best` tally win only on strictly more votes than the best seen so far,
and lets a `Recommended` tally upgrade regardless of votes unless `Best`
is already set; moreover the running threshold is exactly the maximum
`Best` vote count seen so far. -/
theorem C3_suggested_players (counts : List (String × List (String × Int)))
    (hne : ∀ c ∈ counts, c.1 ≠ "")
    (hnd : (counts.map (fun c => c.1)).Nodup) :
    parseSuggestedPlayers [encodePoll counts] =
      .ok (counts.map (fun c => (XVal.s c.1, specAggregateVotes c.2)))
  ∧ (∀ acc v, voteStep acc (encodeVote v) = .ok (specVoteStep acc v))
  ∧ (∀ (votes : List (String × Int)) (rec : String) (b : Int),
      (votes.foldl specVoteStep (rec, b)).2 =
        votes.foldl (fun acc v => if v.1 = "Best" then max acc v.2 else acc) b) := by
  refine ⟨?_, voteStep_encode, specVote_threshold⟩
  simp only [parseSuggestedPlayers, encodePoll, List.foldlM_cons, List.foldlM_nil,
    XVal.getD, dictGetD, dictLookup, bind, Except.bind]
  simp only [ensureList]
  simp
  rw [suggestedFold_encode counts [] hne (by simp) hnd]
  simp [pure, Except.pure, pyEqStr]

/-- C3 (witness): the spec's example poll, via the theorem at a concrete
input: `{"2": [("Best", 10), ("Recommended", 3)], "4": [("Not
Recommended", 5)]}` aggregates to `{"2": "Best", "4": "Not Recommended"}`. -/
theorem C3_suggested_players_witness :
    parseSuggestedPlayers
        [encodePoll [("2", [("Best", 10), ("Recommended", 3)]),
                     ("4", [("Not Recommended", 5)])]] =
      .ok [(XVal.s "2", "Best"), (XVal.s "4", "Not Recommended")] := by
  have h := (C3_suggested_players
    [("2", [("Best", 10), ("Recommended", 3)]), ("4", [("Not Recommended", 5)])]
    (by simp) (by simp)).1
  rw [h]
  rfl

/-- C1 (counterexample): the claim computes the base score with BOTH sides
trimmed, so for query `"Catan"` and candidate name `" Catan"` it predicts
base `1.0` (exact match after trimming); the code does not trim the name,
takes the substring branch, and scores `0.8`. -/
theorem C1_counterexample :
    scoreResult (fun _ _ => 0) "Catan" "all"
        ⟨some " Catan", none, none, none⟩ = 4/5
  ∧ claimScoreC1 (fun _ _ => 0) "Catan" "all"
        ⟨some " Catan", none, none, none⟩ = 1
  ∧ ((4 : Rat)/5 ≠ 1) := by
  refine ⟨?_, ?_, by norm_num⟩
  · have h : scoreResult (fun _ _ => 0) "Catan" "all"
        ⟨some " Catan", none, none, none⟩ = 8/10 + 0 + 0 := rfl
    rw [h]; norm_num
  · have h : claimScoreC1 (fun _ _ => 0) "Catan" "all"
        ⟨some " Catan", none, none, none⟩ = 1 + 0 + 0 + 0 := rfl
    rw [h]; norm_num

/-- C1 (amended): the scorer computes each candidate's base string-match
score by comparing the lowercased-and-trimmed query against the candidate's
lowercased but UNtrimmed name — `1.0` when equal, else `0.9` when the name
starts with the query, else `0.8` when the name contains the query, else
the similarity ratio times `0.7` — and the total score is that base plus
the platform, rating and year bonuses. -/
theorem C1_amended_base_score (sim : String → String → Rat)
    (query catalog : String) (r : SearchCandidate) :
    scoreResult sim query catalog r =
      specBaseQueryTrimmed sim query r.name + specPlatformBonus catalog r.platform +
        specRatingBonus catalog r.platform r.rating + specYearBonus r.year_published :=
  score_decomp sim query catalog r

/-- C7 (counterexample): the claim adds the rating bonus for every catalog
filter; under filter `"all"`, a `bgg` candidate with rating `8` receives no
rating bonus — its score equals the score of the rating-bonus-free scorer,
although the claimed bonus `min(8/10*0.1, 0.1)` is nonzero. -/
theorem C7_counterexample :
    scoreResult (fun _ _ => 0) "Catan" "all"
        ⟨some "Catan", some "bgg", some 8, none⟩ =
      scoreResultNoRating (fun _ _ => 0) "Catan" "all"
        ⟨some "Catan", some "bgg", some 8, none⟩
  ∧ min ((8:Rat)/10 * (1/10)) (1/10) ≠ 0
  ∧ scoreResult (fun _ _ => 0) "Catan" "all"
        ⟨some "Catan", some "bgg", some 8, none⟩ ≠
      scoreResultNoRating (fun _ _ => 0) "Catan" "all"
        ⟨some "Catan", some "bgg", some 8, none⟩ +
        min ((8:Rat)/10 * (1/10)) (1/10) := by
  have h1 : scoreResult (fun _ _ => 0) "Catan" "all"
      ⟨some "Catan", some "bgg", some 8, none⟩ = 1 + (1/20) + 0 := rfl
  have h2 : scoreResultNoRating (fun _ _ => 0) "Catan" "all"
      ⟨some "Catan", some "bgg", some 8, none⟩ = 1 + (1/20) + 0 := rfl
  refine ⟨h1.trans h2.symm, by norm_num, ?_⟩
  rw [h1, h2]
  norm_num

/-- C7 (amended): the scorer adds the rating bonus
`min(rating/10 * 0.1, 0.1)` only when the catalog filter is `bgg` and the
candidate's platform is `bgg`; under any other filter, or for any other
platform, the score equals the rating-bonus-free score. -/
theorem C7_amended_rating_bonus (sim : String → String → Rat) (query : String)
    (r : SearchCandidate) :
    (∀ x : Rat, r.platform = some "bgg" → r.rating = some x →
      scoreResult sim query "bgg" r =
        scoreResultNoRating sim query "bgg" r + min (x / 10 * (1/10)) (1/10))
  ∧ ∀ catalog : String, (catalog ≠ "bgg" ∨ r.platform ≠ some "bgg") →
      scoreResult sim query catalog r = scoreResultNoRating sim query catalog r := by
  constructor
  · intro x hp hr
    rw [score_decomp, scoreNoRating_decomp]
    have : specRatingBonus "bgg" r.platform r.rating = min (x / 10 * (1/10)) (1/10) := by
      rw [hp, hr]
      simp only [specRatingBonus]
      rw [if_pos ⟨trivial, trivial⟩]
      by_cases hx : x = 0
      · subst hx
        simp only [ne_eq, not_true_eq_false, if_false]
        rw [show ((0:Rat) / 10 * (1/10)) = 0 by norm_num,
          min_eq_left (by norm_num : (0:Rat) ≤ 1/10)]
      · rw [if_pos hx]
    rw [this]
    ring
  · intro catalog hc
    rw [score_decomp, scoreNoRating_decomp]
    have : specRatingBonus catalog r.platform r.rating = 0 := by
      simp only [specRatingBonus]
      rcases hc with hc | hc <;> split_ifs with h0 <;> simp_all
    rw [this]
    ring

/-- C7 (witness): the amended theorem applied at the `bgg` filter with a
concrete rated candidate. -/
theorem C7_amended_rating_bonus_witness :
    scoreResult (fun _ _ => 0) "Catan" "bgg"
        ⟨some "Catan", some "bgg", some 8, none⟩ =
      scoreResultNoRating (fun _ _ => 0) "Catan" "bgg"
        ⟨some "Catan", some "bgg", some 8, none⟩ +
        min ((8:Rat) / 10 * (1/10)) (1/10) :=
  (C7_amended_rating_bonus (fun _ _ => 0) "Catan"
      ⟨some "Catan", some "bgg", some 8, none⟩).1 8 rfl rfl

/-- C2: for every candidate list, query and catalog filter,
`_score_search_results` returns a permutation of the scored candidates
that is sorted in descending order of the computed relevance scores, and
for every score value the candidates carrying that score appear in exactly
their original input order (the sort is stable). -/
theorem C2_sorted_descending_stable (sim : String → String → Rat)
    (results : List SearchCandidate) (query catalog : String) :
    (scoreSearchResults sim results query catalog).Perm
        (scoredList sim results query catalog)
  ∧ (scoreSearchResults sim results query catalog).Pairwise
        (fun a b => b.2 ≤ a.2)
  ∧ ∀ q : Rat,
      (scoreSearchResults sim results query catalog).filter
          (fun p => decide (p.2 = q)) =
        (scoredList sim results query catalog).filter
          (fun p => decide (p.2 = q)) :=
  ⟨sortDesc_perm _, sortDesc_sorted _, fun q => sortDesc_filter _ q⟩

/-- C4: the claimed coercion totality, settled against the source.  The
good cases hold — `safe_int("abc") = None`, `safe_int("4.0") = 4`,
`safe_int(None) = None`, and `safe_float`/`clean_html` return without
raising on every string and on `None` — but `safe_int` itself is not
total on strings: `safe_int("inf")` reaches `int(float("inf"))`, which
raises `OverflowError`, an exception class the `except (ValueError,
TypeError)` clause does not catch, so the call raises. -/
theorem C4_coercion_totality :
    safeIntExc (XVal.s "abc") = .ok none
  ∧ safeIntExc (XVal.s "4.0") = .ok (some 4)
  ∧ safeIntExc XVal.null = .ok none
  ∧ (∀ v : XVal, ∃ r, safeFloatExc v = .ok r)
  ∧ (∀ t : String, ∃ u, cleanHtml (XVal.s t) = .ok u)
  ∧ cleanHtml XVal.null = .ok ""
  ∧ safeIntExc (XVal.s "inf") = .error .overflowError := by
  refine ⟨rfl, ?_, rfl, safeFloatExc_total, cleanHtml_str_total, rfl, rfl⟩
  simp [safeIntExc, isNoneOrEmptyStr, pyFloat, parseFloatStr, trimWsList,
    parseUnsignedFloat, parseMantissa, isDigits, digitsToNat, intOfPyFloat,
    ratTrunc_eq, bind, Except.bind]

/-! ## Helper lemmas: whitespace normalization -/

theorem dropWhile_head_not {p : Char → Bool} {l : List Char} {c : Char}
    (h : (l.dropWhile p).head? = some c) : p c = false := by
  induction l with
  | nil => simp [List.dropWhile] at h
  | cons x xs ih =>
    rw [List.dropWhile_cons] at h
    split at h
    · exact ih h
    · next hx =>
      rw [List.head?_cons, Option.some.injEq] at h
      subst h
      exact Bool.not_eq_true _ ▸ (by simpa using hx)

theorem noDoubleWs_cons {x : Char} {l : List Char}
    (hhead : ∀ c, l.head? = some c → (x.isWhitespace && c.isWhitespace) = false)
    (hl : noDoubleWs l = true) : noDoubleWs (x :: l) = true := by
  cases l with
  | nil => rfl
  | cons d r =>
    show (!(x.isWhitespace && d.isWhitespace) && noDoubleWs (d :: r)) = true
    rw [hhead d rfl, hl]
    rfl

theorem noDoubleWs_tail {x : Char} {l : List Char}
    (h : noDoubleWs (x :: l) = true) : noDoubleWs l = true := by
  cases l with
  | nil => rfl
  | cons d r =>
    simp only [noDoubleWs, Bool.and_eq_true] at h
    exact h.2

theorem squash_head_true (cs : List Char) :
    ∀ c, (squashWsAux true cs).head? = some c → c.isWhitespace = false := by
  induction cs with
  | nil => intro c h; simp [squashWsAux] at h
  | cons x xs ih =>
    intro c h
    simp only [squashWsAux] at h
    split at h
    · exact ih c h
    · next hx =>
      rw [List.head?_cons, Option.some.injEq] at h
      subst h
      simpa using hx

theorem squash_noDouble (cs : List Char) (b : Bool) :
    noDoubleWs (squashWsAux b cs) = true := by
  induction cs generalizing b with
  | nil => rfl
  | cons x xs ih =>
    simp only [squashWsAux]
    split
    · next hx =>
      split
      · exact ih true
      · refine noDoubleWs_cons ?_ (ih true)
        intro c hc
        rw [squash_head_true xs c hc, Bool.and_false]
    · next hx =>
      refine noDoubleWs_cons ?_ (ih false)
      intro c hc
      rw [show x.isWhitespace = false by simpa using hx, Bool.false_and]

theorem noDoubleWs_chain (l : List Char) :
    noDoubleWs l = true ↔
      List.Chain' (fun a b => ¬(a.isWhitespace = true ∧ b.isWhitespace = true)) l := by
  induction l with
  | nil => simp [noDoubleWs]
  | cons x xs ih =>
    cases xs with
    | nil => simp [noDoubleWs]
    | cons d r =>
      rw [List.chain'_cons, ← ih]
      simp only [noDoubleWs, Bool.and_eq_true, Bool.not_eq_true']
      constructor
      · rintro ⟨h1, h2⟩
        refine ⟨?_, h2⟩
        rintro ⟨ha, hb⟩
        rw [ha, hb] at h1
        simp at h1
      · rintro ⟨h1, h2⟩
        refine ⟨?_, h2⟩
        by_cases ha : x.isWhitespace <;> by_cases hb : d.isWhitespace <;>
          simp_all

theorem noDoubleWs_reverse {l : List Char} (h : noDoubleWs l = true) :
    noDoubleWs l.reverse = true := by
  rw [noDoubleWs_chain] at h ⊢
  rw [List.chain'_reverse]
  exact h.imp fun a b hab => fun hc => hab ⟨hc.2, hc.1⟩

theorem noDoubleWs_append_right {a b : List Char}
    (h : noDoubleWs (a ++ b) = true) : noDoubleWs b = true := by
  induction a with
  | nil => simpa using h
  | cons x a' ih => exact ih (noDoubleWs_tail (by simpa using h))

theorem noDoubleWs_suffix {l₁ l₂ : List Char} (hs : l₁ <:+ l₂)
    (h : noDoubleWs l₂ = true) : noDoubleWs l₁ = true := by
  obtain ⟨a, rfl⟩ := hs
  exact noDoubleWs_append_right h

theorem prefix_head? {l₁ l₂ : List Char} (hp : l₁ <+: l₂) {c : Char}
    (h : l₁.head? = some c) : l₂.head? = some c := by
  obtain ⟨t, rfl⟩ := hp
  cases l₁ with
  | nil => simp at h
  | cons x r => simpa using h

theorem trimWs_head {cs : List Char} {c : Char}
    (h : (trimWsList cs).head? = some c) : c.isWhitespace = false := by
  unfold trimWsList at h
  have hsuf : ((cs.dropWhile Char.isWhitespace).reverse.dropWhile Char.isWhitespace)
      <:+ (cs.dropWhile Char.isWhitespace).reverse :=
    List.dropWhile_suffix _
  have hpre : ((cs.dropWhile Char.isWhitespace).reverse.dropWhile
      Char.isWhitespace).reverse <+: cs.dropWhile Char.isWhitespace := by
    have := List.reverse_prefix.2 hsuf
    simpa using this
  exact dropWhile_head_not (prefix_head? hpre h)

theorem trimWs_getLast {cs : List Char} {c : Char}
    (h : (trimWsList cs).getLast? = some c) : c.isWhitespace = false := by
  unfold trimWsList at h
  rw [List.getLast?_reverse] at h
  exact dropWhile_head_not h

theorem trimWs_noDouble {cs : List Char} (h : noDoubleWs cs = true) :
    noDoubleWs (trimWsList cs) = true := by
  unfold trimWsList
  exact noDoubleWs_reverse
    (noDoubleWs_suffix (List.dropWhile_suffix _)
      (noDoubleWs_reverse (noDoubleWs_suffix (List.dropWhile_suffix _) h)))

/-! ## Helper lemmas: text extraction over well-formed markup -/

theorem getTextAux_text_append (t cs : List Char)
    (h : ∀ c ∈ t, c ≠ '<' ∧ c ≠ '&') :
    getTextAux .text (t ++ cs) = t ++ getTextAux .text cs := by
  induction t with
  | nil => simp
  | cons c t' ih =>
    have hc := h c (by simp)
    simp only [List.cons_append, getTextAux, List.append_eq]
    rw [if_neg hc.1, if_neg hc.2, ih (fun d hd => h d (by simp [hd]))]

theorem getTextAux_tag_skip (body cs : List Char) (h : ∀ c ∈ body, c ≠ '>') :
    getTextAux .tag (body ++ '>' :: cs) = getTextAux .text cs := by
  induction body with
  | nil => simp [getTextAux]
  | cons c b' ih =>
    have hc := h c (by simp)
    simp only [List.cons_append, getTextAux, List.append_eq]
    rw [if_neg hc]
    exact ih (fun d hd => h d (by simp [hd]))

theorem tagOpens_append (body rest : List Char) (h : tagOpens body = true) :
    tagOpens (body ++ rest) = true := by
  cases body with
  | nil => simp [tagOpens] at h
  | cons c b' => simpa [tagOpens] using h

theorem getTextAux_ent_consume (rest : List Char) (acc cs : List Char)
    (h : ∀ c ∈ rest, entNameChar c = true) :
    getTextAux (.ent acc) (rest ++ ';' :: cs) =
      (match decodeEntity (acc ++ rest) with
       | some out => out ++ getTextAux .text cs
       | none => '&' :: (acc ++ rest ++ ';' :: getTextAux .text cs)) := by
  induction rest generalizing acc with
  | nil => simp [getTextAux]
  | cons c r ih =>
    have hc := h c (by simp)
    have hne1 : ¬(c = ';') := fun he => absurd (he ▸ hc) (by decide)
    have hne2 : ¬(c = '&') := fun he => absurd (he ▸ hc) (by decide)
    simp only [List.cons_append, getTextAux, List.append_eq]
    rw [if_neg hne1, if_neg hne2, if_pos hc,
      ih (acc ++ [c]) (fun d hd => h d (by simp [hd]))]
    simp [List.append_assoc]

theorem getTextAux_renderTok (tok : HtmlTok) (cs : List Char) (h : wfTok tok) :
    getTextAux .text (renderTok tok ++ cs) = decodeTok tok ++ getTextAux .text cs := by
  cases tok with
  | text t => exact getTextAux_text_append t.data cs h
  | tag body =>
    obtain ⟨hopen, hgt⟩ := h
    show getTextAux .text (('<' :: body.data ++ ['>']) ++ cs) = [] ++ _
    have harr : ('<' :: body.data ++ ['>']) ++ cs = '<' :: (body.data ++ '>' :: cs) := by
      simp
    rw [harr]
    simp only [getTextAux, reduceIte]
    rw [if_pos (tagOpens_append body.data _ hopen),
      getTextAux_tag_skip body.data cs hgt]
    simp
  | ent name =>
    obtain ⟨hname, hsome⟩ := h
    obtain ⟨d, hd⟩ := Option.isSome_iff_exists.1 hsome
    show getTextAux .text (('&' :: name.data ++ [';']) ++ cs) = _
    have harr : ('&' :: name.data ++ [';']) ++ cs = '&' :: (name.data ++ ';' :: cs) := by
      simp
    rw [harr]
    simp only [getTextAux, reduceIte]
    rw [getTextAux_ent_consume name.data [] cs hname]
    simp only [List.nil_append, hd]
    simp [decodeTok, hd]

theorem getText_renderDoc (doc : List HtmlTok) (h : ∀ tok ∈ doc, wfTok tok) :
    getTextAux .text (doc.flatMap renderTok) = doc.flatMap decodeTok := by
  induction doc with
  | nil => rfl
  | cons tok rest ih =>
    simp only [List.flatMap_cons]
    rw [getTextAux_renderTok tok _ (h tok (by simp)),
      ih (fun t ht => h t (by simp [ht]))]

/-- C9: `clean_html` strips markup tags and decodes character references —
for every well-formed token sequence, cleaning the rendered markup equals
whitespace-normalizing the decoded text — collapses consecutive whitespace
and trims (the output never starts or ends with whitespace and never has
two adjacent whitespace characters), and maps `"<p>A &amp; B</p>"` to
`"A & B"` and empty or `None` input to `""`. -/
theorem C9_clean_html_pipeline :
    cleanHtml (XVal.s "<p>A &amp; B</p>") = .ok "A & B"
  ∧ cleanHtml (XVal.s "") = .ok ""
  ∧ cleanHtml XVal.null = .ok ""
  ∧ (∀ doc : List HtmlTok, (∀ tok ∈ doc, wfTok tok) →
      cleanHtmlStr (renderDoc doc) = normalizeWs (decodeDoc doc))
  ∧ (∀ t : String,
      (∀ c, (cleanHtmlStr t).data.head? = some c → c.isWhitespace = false)
    ∧ (∀ c, (cleanHtmlStr t).data.getLast? = some c → c.isWhitespace = false)
    ∧ noDoubleWs (cleanHtmlStr t).data = true) := by
  refine ⟨rfl, rfl, rfl, ?_, ?_⟩
  · intro doc hdoc
    unfold cleanHtmlStr normalizeWs getText renderDoc decodeDoc
    rw [show (String.mk (doc.flatMap renderTok)).data = doc.flatMap renderTok from rfl,
      getText_renderDoc doc hdoc]
  · intro t
    refine ⟨fun c hc => trimWs_head hc, fun c hc => trimWs_getLast hc, ?_⟩
    exact trimWs_noDouble (squash_noDouble _ false)

/-- C9 (witness): the well-formed-document conjunct at the concrete
document `<p>A &amp; B</p>`. -/
theorem C9_clean_html_pipeline_witness :
    cleanHtmlStr (renderDoc [.tag "p", .text "A ", .ent "amp", .text " B", .tag "/p"]) =
      normalizeWs (decodeDoc [.tag "p", .text "A ", .ent "amp", .text " B", .tag "/p"]) := by
  apply C9_clean_html_pipeline.2.2.2.1
  intro tok htok
  simp only [List.mem_cons, List.not_mem_nil, or_false] at htok
  rcases htok with h | h | h | h | h <;> subst h
  · exact ⟨by decide, by decide⟩
  · exact (by decide : ∀ c ∈ ("A " : String).data, c ≠ '<' ∧ c ≠ '&')
  · exact ⟨by decide, by decide⟩
  · exact (by decide : ∀ c ∈ (" B" : String).data, c ≠ '<' ∧ c ≠ '&')
  · exact ⟨by decide, by decide⟩

end Kallax
